import Mathlib

/-!
Shallow embedding of the education-level resolution, resume aggregation and
resume store logic of the resume backend (src/src/services/education_mapper.py,
src/src/services/resume_service.py, src/src/entity/resume_entities.py),
together with proofs settling the specification claims about them.

Python strings are modelled as Lean `String`/`List Char`; Python `int` as `ℤ`;
Python floats produced by this code as `ℚ` (see the note at `pyRound1`);
fallible parsing as `Option`; the database as an explicit record of row lists,
with commit/execute failures injected as boolean parameters.
-/

/-- Python `needle in hay` substring test on character lists
(`"" in s` is true, as in Python). -/
def containsSub (needle : List Char) : List Char → Bool
  | [] => needle.isEmpty
  | c :: rest => needle.isPrefixOf (c :: rest) || containsSub needle rest

/-- Python `str.strip()` (restricted to the ASCII whitespace that occurs in
this code's inputs): drop whitespace from both ends. -/
def pyStrip (s : List Char) : List Char :=
  ((s.dropWhile Char.isWhitespace).reverse.dropWhile Char.isWhitespace).reverse

/-- Python `text.lower().strip()`.  `str.lower` is modelled on ASCII
(`Char.toLower`); on the Hangul and ASCII data handled here the two agree
(Hangul has no case). -/
def lowerStrip (s : List Char) : List Char :=
  pyStrip (s.map Char.toLower)

/-- Parse a non-empty all-digit character list as a natural number. -/
def parseDigits : List Char → Option Nat
  | [] => none
  | cs =>
    if cs.all Char.isDigit then
      some (cs.foldl (fun n c => 10 * n + (c.toNat - 48)) 0)
    else none

/-- CPython `int(s)` on a string: optional surrounding whitespace, optional
sign, then decimal digits; anything else raises (modelled as `none`).
Digit-grouping underscores and non-ASCII digits do not occur in the inputs
considered here and are not modelled. -/
def pyInt (s : List Char) : Option Int :=
  match pyStrip s with
  | '+' :: rest => (parseDigits rest).map Int.ofNat
  | '-' :: rest => (parseDigits rest).map (fun n => -(n : Int))
  | cs => (parseDigits cs).map Int.ofNat

/-- Python `s.split(sep)` for a one-character separator: split at every
occurrence, keeping empty pieces (`"".split(sep)` is `[""]`). -/
def splitOnChar (c : Char) : List Char → List (List Char)
  | [] => [[]]
  | x :: xs =>
    let r := splitOnChar c xs
    if x = c then [] :: r
    else
      match r with
      | [] => [[x]]
      | h :: t => (x :: h) :: t

/-- Insert into a list kept in descending key order, placing `x` before every
element of key ≤ `key x` (so that, folding from the right, earlier input
elements come first among equal keys — the stable order Python's
`sorted(..., reverse=True)` guarantees). -/
def insertKeyDesc (key : α → Nat) (x : α) : List α → List α
  | [] => [x]
  | y :: ys => if key y ≤ key x then x :: y :: ys else y :: insertKeyDesc key x ys

/-- Stable descending sort by a `Nat` key: the unique reordering that is
descending on keys and keeps input order among equal keys, i.e. the result of
Python's `sorted(l, key=key, reverse=True)`. -/
def sortKeyDesc (key : α → Nat) (l : List α) : List α :=
  l.foldr (insertKeyDesc key) []

/-- First element of the list attaining the maximum key (earliest one wins
ties), `none` on the empty list. -/
def firstMaxByKey (key : α → Nat) : List α → Option α
  | [] => none
  | x :: xs =>
    match firstMaxByKey key xs with
    | none => some x
    | some m => if key m ≤ key x then some x else some m

namespace EducationMapper

/-- Entity `EducationLevel` (src/src/entity/resume_entities.py): the ordered
scale of education tiers, declared from lowest to highest.  As a PostgreSQL
native enum its SQL comparison order is this declaration order. -/
inductive EducationLevel where
  | elementary
  | middle
  | high_school
  | bachelor
  | master
  | doctorate
deriving DecidableEq, Repr

/-- Ordinal rank of a tier, 1 (elementary) … 6 (doctorate) — the mapping the
entities' `to_dict` and the mapper's `EDUCATION_LEVEL_MAPPING` use, and the
PostgreSQL enum comparison order. -/
def EducationLevel.levelNumber : EducationLevel → Nat
  | .elementary => 1
  | .middle => 2
  | .high_school => 3
  | .bachelor => 4
  | .master => 5
  | .doctorate => 6

/-- `EducationMapper.EDUCATION_LEVEL_MAPPING`: numeric level → enum. -/
def EDUCATION_LEVEL_MAPPING : List (Nat × EducationLevel) :=
  [(1, .elementary), (2, .middle), (3, .high_school),
   (4, .bachelor), (5, .master), (6, .doctorate)]

/-- `EducationMapper.EDUCATION_KEYWORDS` in Python dict insertion order
(iteration order of the `for keyword, level in ...` loop). -/
def EDUCATION_KEYWORDS : List (String × Nat) :=
  [("초등학교", 1), ("초등", 1), ("elementary", 1),
   ("중학교", 2), ("중등", 2), ("middle", 2),
   ("고등학교", 3), ("고등", 3), ("고교", 3), ("high school", 3), ("highschool", 3),
   ("대학교", 4), ("대학", 4), ("학사", 4), ("bachelor", 4), ("university", 4),
   ("college", 4), ("학부", 4), ("4년제", 4), ("4년", 4),
   ("석사", 5), ("master", 5), ("대학원", 5), ("석사과정", 5), ("masters", 5),
   ("박사", 6), ("doctorate", 6), ("phd", 6), ("박사과정", 6), ("doctor", 6)]

/-- The fallback `patterns` list of `extract_education_level`.  Every regex in
the source is an alternation of literals, so `re.search(pat, t)` holds iff one
of the literal alternatives is a substring of `t`. -/
def patterns : List (List String × Nat) :=
  [(["초등"], 1),
   (["중등", "중학교"], 2),
   (["고등", "고교", "고등학교"], 3),
   (["대학", "학사", "4년제"], 4),
   (["석사", "master"], 5),
   (["박사", "phd", "doctor"], 6)]

/-- `EducationMapper.extract_education_level`: keyword-table substring lookup
in insertion order first, then the fallback patterns in order, else 0.
`if not text` is the Python falsy test on the string argument. -/
def extract_education_level (text : String) : Nat :=
  if text = "" then 0
  else
    let t := lowerStrip text.data
    match EDUCATION_KEYWORDS.findSome?
        (fun kw => if containsSub kw.1.data t then some kw.2 else none) with
    | some level => level
    | none =>
      match patterns.findSome?
          (fun p => if p.1.any (fun w => containsSub w.data t) then some p.2 else none) with
      | some level => level
      | none => 0

/-- `EducationMapper.get_education_level_enum`: `EDUCATION_LEVEL_MAPPING.get(level)`. -/
def get_education_level_enum (level : Nat) : Option EducationLevel :=
  EDUCATION_LEVEL_MAPPING.lookup level

/-- Input dictionary of `parse_education_info` (keys `institution`, `degree`);
both values are strings in the extraction payload (`ExtractedEducation`). -/
structure EducationData where
  institution : String
  degree : String
deriving DecidableEq, Repr

/-- Result dictionary of `parse_education_info`. -/
structure ParsedEducation where
  institution_name : String
  education_level : Option EducationLevel
  level_number : Nat
deriving DecidableEq, Repr

/-- `EducationMapper.parse_education_info`: level is the max of the levels
extracted from institution and degree text, with 4 (bachelor) substituted when
that max is 0. -/
def parse_education_info (d : EducationData) : ParsedEducation :=
  let level_from_institution := extract_education_level d.institution
  let level_from_degree := extract_education_level d.degree
  let m := max level_from_institution level_from_degree
  let final_level := if m = 0 then 4 else m
  { institution_name := d.institution
    education_level := get_education_level_enum final_level
    level_number := final_level }

/-- `EducationMapper.find_highest_education`: `None` on an empty list, else
the head of the list stably sorted by `level_number` descending
(`sorted(..., key=lambda x: x.get('level_number', 0), reverse=True)[0]`;
every parsed dict carries the key, so the `.get` default is never taken). -/
def find_highest_education (l : List ParsedEducation) : Option ParsedEducation :=
  if l.isEmpty then none
  else (sortKeyDesc (fun e => e.level_number) l).head?

/-- `EducationMapper.process_education_data`: `([], None)` on empty input,
else the per-entry parses plus the highest.  The per-entry `try/except`
never fires: `parse_education_info` is total on the string-typed payload
(modelled by a total Lean function), so no entry is skipped. -/
def process_education_data (l : List EducationData) :
    List ParsedEducation × Option ParsedEducation :=
  if l.isEmpty then ([], none)
  else
    let parsed := l.map parse_education_info
    (parsed, find_highest_education parsed)

end EducationMapper

namespace ResumeService

open EducationMapper

/-- Round half to even on a rational (the rounding CPython `round` uses). -/
def roundHalfEven (q : ℚ) : ℤ :=
  let f : ℤ := ⌊q⌋
  if q - f < 1 / 2 then f
  else if (1 : ℚ) / 2 < q - f then f + 1
  else if f % 2 = 0 then f else f + 1

/-- CPython `round(x, 1)` modelled exactly on ℚ.  For every integer month
total `m`, the double `m/12` rounds to the same single decimal as the exact
rational: the only round-to-even ties (`m ≡ 3 [MOD 6]`) are quarters, exactly
representable in binary, and every other value of `5m/6` is at distance
≥ 1/60 from a decimal midpoint, far beyond double rounding error. -/
def pyRound1 (q : ℚ) : ℚ :=
  (roundHalfEven (10 * q) : ℚ) / 10

/-- `ExtractedWorkExperience` (src/src/services/pdf_parser_service.py):
all four fields are required strings in the extraction payload. -/
structure WorkExperience where
  period : String
  company : String
  position : String
  description : String
deriving DecidableEq, Repr

/-- `ExtractedCertification` from the extraction payload. -/
structure Certification where
  date : String
  name : String
  issuer : String
deriving DecidableEq, Repr

/-- `ExtractedLanguageSkill` from the extraction payload. -/
structure LanguageSkill where
  language : String
  proficiency : String
deriving DecidableEq, Repr

/-- `ExtractedEducation` from the extraction payload. -/
structure ExtractedEducation where
  period : String
  institution : String
  major : String
  degree : String
  grade : String
deriving DecidableEq, Repr

/-- `ExtractedResumeInfo` from the extraction payload. -/
structure ExtractedResumeInfo where
  name : String
  gender : String
  birth_year : Int
  phone_number : String
  email : String
  address : String
  education : List ExtractedEducation
  work_experience : List WorkExperience
  certifications : List Certification
  language_skills : List LanguageSkill
deriving DecidableEq, Repr

/-- Year extracted from one side of a period string inside
`_calculate_experience_years`:
`int(s.split('.')[0]) if '.' in s else int(s)` (the side is already
stripped when this runs). -/
def yearOf (s : List Char) : Option Int :=
  if s.contains '.' then pyInt ((splitOnChar '.' s).headI) else pyInt s

/-- Contribution of one work entry with non-empty `period` to the month total
of `_calculate_experience_years`: split on `'-'`; only a two-part split is
examined at all (otherwise the `if` body is skipped and nothing is added —
no exception is raised); if a year fails `int()`, the `except` branch adds
12 months. -/
def entryMonths (period : String) : ℤ :=
  let parts := splitOnChar '-' period.data
  if parts.length = 2 then
    match yearOf (pyStrip parts.headI), yearOf (pyStrip (parts.getD 1 [])) with
    | some start_year, some end_year => (end_year - start_year) * 12
    | _, _ => 12
  else 0

/-- The `total_months` accumulator of `_calculate_experience_years`: entries
with falsy (empty) `period` are skipped. -/
def totalMonths (l : List WorkExperience) : ℤ :=
  l.foldl (fun acc w => if w.period ≠ "" then acc + entryMonths w.period else acc) 0

/-- `ResumeService._calculate_experience_years`: `0.0` for an empty list,
else `round(total_months / 12, 1)`. -/
def calculate_experience_years (l : List WorkExperience) : ℚ :=
  if l.isEmpty then 0
  else pyRound1 ((totalMonths l : ℚ) / 12)

/-- `ResumeService._extract_current_job`: position and company of the first
entry, `(None, None)` on an empty list. -/
def extract_current_job (l : List WorkExperience) : Option String × Option String :=
  match l with
  | [] => (none, none)
  | w :: _ => (some w.position, some w.company)

/-- One character of CPython `json.dumps` output (`ensure_ascii=False`):
quote, backslash and control characters are escaped, everything else is
emitted verbatim. -/
def jsonEscapeChar (c : Char) : String :=
  if c = '"' then "\\\""
  else if c = '\\' then "\\\\"
  else if c = '\n' then "\\n"
  else if c = '\t' then "\\t"
  else if c = '\r' then "\\r"
  else if c = Char.ofNat 8 then "\\b"
  else if c = Char.ofNat 12 then "\\f"
  else if c.toNat < 32 then
    let lo := c.toNat % 16
    let hi := c.toNat / 16
    let hexDigit : Nat → Char := fun n => if n < 10 then Char.ofNat (48 + n) else Char.ofNat (87 + n)
    String.mk ['\\', 'u', '0', '0', hexDigit hi, hexDigit lo]
  else String.singleton c

/-- CPython `json.dumps` (`ensure_ascii=False`) of a list of strings, with
the default `", "` item separator. -/
def jsonDumpsStrList (l : List String) : String :=
  "[" ++ String.intercalate ", "
    (l.map (fun s => "\"" ++ String.join (s.data.map jsonEscapeChar) ++ "\"")) ++ "]"

/-- `ResumeService._extract_previous_companies`: `None` with fewer than two
entries; otherwise the companies of entries at index 1+ with truthy
(non-empty) company name, serialized — or `None` when none remain. -/
def extract_previous_companies (l : List WorkExperience) : Option String :=
  if l.length ≤ 1 then none
  else
    let previous_companies := ((l.drop 1).filter (fun w => w.company ≠ "")).map (fun w => w.company)
    if previous_companies.isEmpty then none
    else some (jsonDumpsStrList previous_companies)

/-- Entity `ResumeStatus`. -/
inductive ResumeStatus where
  | uploading
  | parsing
  | analyzing
  | completed
  | failed
deriving DecidableEq, Repr

/-- Row of the `resumes` table (entity `Resume`), restricted to the columns
the claims read or the service writes with claim-relevant values.  Nullable
columns are `Option`; `created_at`/`deleted_at` timestamps are abstract
instants (`Nat`).  Text-blob columns no claim mentions (`file_path`,
`skills`, `certifications`, `languages`, `parsed_data`, AI fields, `tags`,
`notes`, `raw_text`, `updated_at`) are omitted from the projection. -/
structure Resume where
  id : String
  status : ResumeStatus
  original_filename : String
  file_size : Int
  name : Option String
  email : Option String
  phone : Option String
  address : Option String
  birth_year : Option Int
  total_experience_years : ℚ
  current_position : Option String
  current_company : Option String
  previous_companies : Option String
  education_level : Option EducationLevel
  university : Option String
  graduation_year : Option Int
  uploaded_by : Option String
  created_at : Nat
  deleted_at : Option Nat
deriving DecidableEq, Repr

/-- Row of the `resume_educations` table (entity `ResumeEducation`); the
autoincrement surrogate id is omitted.  `resume_id` is a plain indexed string
column — the schema declares no ForeignKey and no cascade. -/
structure ResumeEducation where
  resume_id : String
  institution_name : String
  education_level : EducationLevel
deriving DecidableEq, Repr

/-- The store: current committed contents of the two tables. -/
structure Db where
  resumes : List Resume
  resume_educations : List ResumeEducation
deriving DecidableEq, Repr

/-- The `Resume(...)` entity constructed inside
`ResumeService.save_extracted_resume` (the claim-relevant columns): education
summary fields come from `EducationMapper.process_education_data` over the
payload's (institution, degree) pairs, work-derived fields from the three
helpers.  `created_at` stands for the server-assigned commit instant;
`deleted_at` starts NULL; `graduation_year` is explicitly not stored. -/
def build_resume_row (x : ExtractedResumeInfo) (resume_id : String)
    (original_filename : String) (file_size : Int) (uploaded_by : Option String)
    (now : Nat) : Resume :=
  let education_data_list := x.education.map (fun e => EducationData.mk e.institution e.degree)
  let final_education := (process_education_data education_data_list).2
  { id := resume_id
    status := ResumeStatus.completed
    original_filename := original_filename
    file_size := file_size
    name := some x.name
    email := some x.email
    phone := some x.phone_number
    address := some x.address
    birth_year := some x.birth_year
    total_experience_years := calculate_experience_years x.work_experience
    current_position := (extract_current_job x.work_experience).1
    current_company := (extract_current_job x.work_experience).2
    previous_companies := extract_previous_companies x.work_experience
    education_level := final_education.bind (fun f => f.education_level)
    university := final_education.map (fun f => f.institution_name)
    graduation_year := none
    uploaded_by := uploaded_by
    created_at := now
    deleted_at := none }

/-- The `ResumeEducation` rows staged by `_save_education_details`: one per
parsed education entry.  `parse_education_info` always yields a `some`
education level (proved in `parse_education_level_isSome` below), so the
`getD` default is never taken. -/
def education_rows (x : ExtractedResumeInfo) (resume_id : String) : List ResumeEducation :=
  ((process_education_data (x.education.map (fun e => EducationData.mk e.institution e.degree))).1).map
    (fun p => { resume_id := resume_id
                institution_name := p.institution_name
                education_level := p.education_level.getD EducationLevel.bachelor })

/-- `ResumeService.save_extracted_resume` followed by its call to
`_save_education_details`, as executed: the resume row is staged and
committed first (`db.add(resume); await db.commit()`), and only then are the
education rows staged and committed by `_save_education_details`
(`db.add(...)` per row; `await db.commit()`) — two transactions, not one.
`commit1Fails` / `commit2Fails` inject a storage failure into the respective
commit; a failed commit rolls its uncommitted staged rows back, the handler
re-raises (`none` outcome), and anything already committed stays.  The
success outcome is the saved `Resume` entity. -/
def save_extracted_resume (db : Db) (x : ExtractedResumeInfo) (resume_id : String)
    (original_filename : String) (file_size : Int) (uploaded_by : Option String)
    (now : Nat) (commit1Fails commit2Fails : Bool) : Option Resume × Db :=
  let resume := build_resume_row x resume_id original_filename file_size uploaded_by now
  if commit1Fails then (none, db)
  else
    let db1 : Db := { db with resumes := db.resumes ++ [resume] }
    if commit2Fails then (none, db1)
    else (some resume,
      { db1 with resume_educations := db1.resume_educations ++ education_rows x resume_id })

/-- `ResumeService.get_education_details`: rows of the resume ordered by
`education_level` descending.  The column is a native PostgreSQL enum, whose
SQL comparison order is the declaration order `ELEMENTARY < … < DOCTORATE`,
i.e. `EducationLevel.levelNumber`; the relative order of equal levels is not
constrained by the query and is realized here as storage order (stable sort).
`err` injects a query failure, which the handler turns into `[]`. -/
def get_education_details (db : Db) (err : Bool) (resume_id : String) :
    List ResumeEducation :=
  if err then []
  else sortKeyDesc (fun r => r.education_level.levelNumber)
    (db.resume_educations.filter (fun r => r.resume_id = resume_id))

/-- `ResumeService.get_final_education`: same query with `LIMIT 1`, via
`scalar_one_or_none` (`none` for an empty result); `err` → handler → `none`. -/
def get_final_education (db : Db) (err : Bool) (resume_id : String) :
    Option ResumeEducation :=
  if err then none
  else (sortKeyDesc (fun r => r.education_level.levelNumber)
    (db.resume_educations.filter (fun r => r.resume_id = resume_id))).head?

/-- `ResumeService.get_resume_by_id`: `scalar_one_or_none` over an id
equality select — the row when exactly one matches, `None` when none does,
and `None` as well when several match (`MultipleResultsFound` is swallowed by
the handler) or when the query itself fails (`err`). -/
def get_resume_by_id (db : Db) (err : Bool) (resume_id : String) : Option Resume :=
  if err then none
  else
    match db.resumes.filter (fun r => r.id = resume_id) with
    | [r] => some r
    | _ => none

/-- `ResumeService.get_resumes_by_name`: `name ILIKE '%arg%'` — a
case-insensitive substring match which a NULL name never satisfies
(SQL `%`/`_` wildcards inside the argument itself are not modelled);
`err` → handler → `[]`. -/
def get_resumes_by_name (db : Db) (err : Bool) (name : String) : List Resume :=
  if err then []
  else db.resumes.filter (fun r =>
    match r.name with
    | none => false
    | some t => containsSub (name.data.map Char.toLower) (t.data.map Char.toLower))

/-- `ResumeService.get_all_resumes`: order by `created_at` descending (ties
realized as storage order), then `OFFSET offset LIMIT limit`;
`err` → handler → `[]`. -/
def get_all_resumes (db : Db) (err : Bool) (limit offset : Nat) : List Resume :=
  if err then []
  else ((sortKeyDesc (fun r => r.created_at) db.resumes).drop offset).take limit

/-- `ResumeService.delete_resume_by_id`.  Hard branch: a core
`DELETE FROM resumes WHERE id = …` — `resume_educations` rows are untouched
(the schema has no ForeignKey and no cascade), `err` injects a storage
failure (rollback, `False`).  Soft branch: the update expression evaluates
`func.now()`, but `func` is never imported in resume_service.py (only
`select`, `delete`, `update` are), so a `NameError` is raised before any SQL
runs; the handler rolls back and returns `False` — unconditionally, with the
store unchanged. -/
def delete_resume_by_id (db : Db) (resume_id : String) (hard : Bool) (err : Bool) :
    Bool × Db :=
  if hard then
    if err then (false, db)
    else (true, { db with resumes := db.resumes.filter (fun r => r.id ≠ resume_id) })
  else (false, db)

end ResumeService

open EducationMapper ResumeService

/-- A successful `findSome?` comes from some list element. -/
theorem findSome?_some_of {α β : Type} {f : α → Option β} :
    ∀ {l : List α} {b : β}, l.findSome? f = some b → ∃ a ∈ l, f a = some b := by
  intro l
  induction l with
  | nil => intro b h; simp [List.findSome?] at h
  | cons x xs ih =>
    intro b h
    rw [List.findSome?_cons] at h
    cases hx : f x with
    | some v =>
      rw [hx] at h
      exact ⟨x, List.mem_cons_self x xs, by rw [hx]; exact h⟩
    | none =>
      rw [hx] at h
      obtain ⟨a, ha, hfa⟩ := ih h
      exact ⟨a, List.mem_cons_of_mem x ha, hfa⟩

/-- If no element produces a value, `findSome?` is `none`. -/
theorem findSome?_none_of {α β : Type} {f : α → Option β} :
    ∀ {l : List α}, (∀ a ∈ l, f a = none) → l.findSome? f = none := by
  intro l
  induction l with
  | nil => intro _; rfl
  | cons x xs ih =>
    intro h
    rw [List.findSome?_cons, h x (List.mem_cons_self x xs)]
    exact ih fun a ha => h a (List.mem_cons_of_mem x ha)

/-- The head of the stably-descending-sorted list is the first maximum. -/
theorem head?_sortKeyDesc {α : Type} (key : α → Nat) (l : List α) :
    (sortKeyDesc key l).head? = firstMaxByKey key l := by
  induction l with
  | nil => rfl
  | cons x xs ih =>
    show (insertKeyDesc key x (sortKeyDesc key xs)).head? = _
    cases hs : sortKeyDesc key xs with
    | nil =>
      have hfm : firstMaxByKey key xs = none := by rw [← ih, hs]; rfl
      simp [firstMaxByKey, hfm, insertKeyDesc]
    | cons y ys =>
      have hfm : firstMaxByKey key xs = some y := by rw [← ih, hs]; rfl
      by_cases h : key y ≤ key x <;>
        simp [firstMaxByKey, hfm, insertKeyDesc, h]

/-- `firstMaxByKey` is `none` exactly on the empty list. -/
theorem firstMaxByKey_eq_none {α : Type} (key : α → Nat) :
    ∀ {l : List α}, firstMaxByKey key l = none ↔ l = [] := by
  intro l
  cases l with
  | nil => simp [firstMaxByKey]
  | cons x xs =>
    simp only [firstMaxByKey]
    cases h : firstMaxByKey key xs with
    | none => simp
    | some m => by_cases hk : key m ≤ key x <;> simp [hk]

/-- The first maximum is an element of the list. -/
theorem firstMaxByKey_mem {α : Type} (key : α → Nat) :
    ∀ {l : List α} {m : α}, firstMaxByKey key l = some m → m ∈ l := by
  intro l
  induction l with
  | nil => intro m h; simp [firstMaxByKey] at h
  | cons x xs ih =>
    intro m h
    cases hx : firstMaxByKey key xs with
    | none =>
      simp only [firstMaxByKey, hx] at h
      cases h; exact List.mem_cons_self x xs
    | some m' =>
      simp only [firstMaxByKey, hx] at h
      by_cases hk : key m' ≤ key x
      · rw [if_pos hk] at h; cases h; exact List.mem_cons_self x xs
      · rw [if_neg hk] at h; cases h; exact List.mem_cons_of_mem x (ih hx)

/-- Every element's key is bounded by the first maximum's key. -/
theorem firstMaxByKey_le {α : Type} (key : α → Nat) :
    ∀ {l : List α} {m : α}, firstMaxByKey key l = some m →
      ∀ a ∈ l, key a ≤ key m := by
  intro l
  induction l with
  | nil => intro m _ a ha; simp at ha
  | cons x xs ih =>
    intro m h a ha
    cases hx : firstMaxByKey key xs with
    | none =>
      simp only [firstMaxByKey, hx] at h
      cases h
      have : xs = [] := (firstMaxByKey_eq_none key).mp hx
      subst this
      rcases List.mem_singleton.mp ha with rfl
      exact Nat.le_refl _
    | some m' =>
      simp only [firstMaxByKey, hx] at h
      by_cases hk : key m' ≤ key x
      · rw [if_pos hk] at h; cases h
        rcases List.mem_cons.mp ha with rfl | ha'
        · exact Nat.le_refl _
        · exact Nat.le_trans (ih hx a ha') hk
      · rw [if_neg hk] at h; cases h
        rcases List.mem_cons.mp ha with rfl | ha'
        · exact Nat.le_of_lt (Nat.lt_of_not_le hk)
        · exact ih hx a ha'

/-- The first maximum really is the first: everything before it in the list
has a strictly smaller key. -/
theorem firstMaxByKey_first {α : Type} (key : α → Nat) :
    ∀ {l : List α} {m : α}, firstMaxByKey key l = some m →
      ∃ as bs, l = as ++ m :: bs ∧ ∀ a ∈ as, key a < key m := by
  intro l
  induction l with
  | nil => intro m h; simp [firstMaxByKey] at h
  | cons x xs ih =>
    intro m h
    cases hx : firstMaxByKey key xs with
    | none =>
      simp only [firstMaxByKey, hx] at h
      cases h
      exact ⟨[], xs, rfl, by simp⟩
    | some m' =>
      simp only [firstMaxByKey, hx] at h
      by_cases hk : key m' ≤ key x
      · rw [if_pos hk] at h; cases h
        exact ⟨[], xs, rfl, by simp⟩
      · rw [if_neg hk] at h; cases h
        obtain ⟨as, bs, heq, hlt⟩ := ih hx
        refine ⟨x :: as, bs, by rw [heq]; rfl, ?_⟩
        intro a ha
        rcases List.mem_cons.mp ha with rfl | ha'
        · exact Nat.lt_of_not_le hk
        · exact hlt a ha'

/-- `find_highest_education` computes the first maximum by `level_number`. -/
theorem find_highest_education_eq_firstMax (l : List ParsedEducation) :
    find_highest_education l = firstMaxByKey (fun e => e.level_number) l := by
  unfold find_highest_education
  cases l with
  | nil => rfl
  | cons x xs => simpa using head?_sortKeyDesc (fun e : ParsedEducation => e.level_number) (x :: xs)

/-- Every table keyword carries a tier ≤ 6. -/
theorem education_keywords_le_six : ∀ p ∈ EDUCATION_KEYWORDS, p.2 ≤ 6 := by decide

/-- Every fallback pattern carries a tier ≤ 6. -/
theorem patterns_le_six : ∀ p ∈ EducationMapper.patterns, p.2 ≤ 6 := by decide

/-- `extract_education_level` never exceeds 6. -/
theorem extract_education_level_le_six (text : String) :
    extract_education_level text ≤ 6 := by
  unfold extract_education_level
  by_cases he : text = ""
  · simp [he]
  rw [if_neg he]
  cases hk : EDUCATION_KEYWORDS.findSome?
      (fun kw => if containsSub kw.1.data (lowerStrip text.data) then some kw.2 else none) with
  | some level =>
    simp only [hk]
    obtain ⟨a, ha, hfa⟩ := findSome?_some_of hk
    by_cases hc : containsSub a.1.data (lowerStrip text.data)
    · rw [if_pos hc] at hfa; cases hfa; exact education_keywords_le_six a ha
    · rw [if_neg hc] at hfa; cases hfa
  | none =>
    simp only [hk]
    cases hp : EducationMapper.patterns.findSome?
        (fun p => if p.1.any (fun w => containsSub w.data (lowerStrip text.data)) then some p.2 else none) with
    | some level =>
      simp only [hp]
      obtain ⟨a, ha, hfa⟩ := findSome?_some_of hp
      by_cases hc : a.1.any (fun w => containsSub w.data (lowerStrip text.data))
      · rw [if_pos hc] at hfa; cases hfa; exact patterns_le_six a ha
      · rw [if_neg hc] at hfa; cases hfa
    | none => simp [hp]

/-- The level number produced by `parse_education_info` lies in [1, 6]. -/
theorem parse_level_number_bounds (d : EducationData) :
    1 ≤ (parse_education_info d).level_number ∧ (parse_education_info d).level_number ≤ 6 := by
  unfold parse_education_info
  by_cases h : max (extract_education_level d.institution) (extract_education_level d.degree) = 0
  · simp [h]
  · simp only [h, if_neg h]
    refine ⟨Nat.one_le_iff_ne_zero.mpr h, ?_⟩
    exact max_le (extract_education_level_le_six d.institution)
      (extract_education_level_le_six d.degree)

/-- `parse_education_info` always resolves an enum member (the mapping is
total on [1, 6]). -/
theorem parse_education_level_isSome (d : EducationData) :
    ((parse_education_info d).education_level).isSome := by
  obtain ⟨h1, h6⟩ := parse_level_number_bounds d
  have : (parse_education_info d).education_level =
      get_education_level_enum (parse_education_info d).level_number := by
    unfold parse_education_info
    by_cases h : max (extract_education_level d.institution) (extract_education_level d.degree) = 0 <;>
      simp [h]
  rw [this]
  set n := (parse_education_info d).level_number
  interval_cases n <;> decide

/-- Unrolling `totalMonths`'s accumulator. -/
theorem totalMonths_foldl (l : List WorkExperience) (a : ℤ) :
    l.foldl (fun acc w => if w.period ≠ "" then acc + entryMonths w.period else acc) a
      = a + totalMonths l := by
  induction l generalizing a with
  | nil => simp [totalMonths]
  | cons w ws ih =>
    have hc : totalMonths (w :: ws)
        = ws.foldl (fun acc w => if w.period ≠ "" then acc + entryMonths w.period else acc)
            (if w.period ≠ "" then 0 + entryMonths w.period else 0) := rfl
    show ws.foldl (fun acc w => if w.period ≠ "" then acc + entryMonths w.period else acc)
        (if w.period ≠ "" then a + entryMonths w.period else a) = _
    rw [hc, ih, ih]
    split_ifs <;> ring

/-- Per-entry decomposition of the month total. -/
theorem totalMonths_decomp (pre post : List WorkExperience) (w : WorkExperience) :
    totalMonths (pre ++ w :: post) =
      totalMonths pre + (if w.period ≠ "" then entryMonths w.period else 0) + totalMonths post := by
  have h1 : totalMonths (pre ++ w :: post)
      = (w :: post).foldl (fun acc w => if w.period ≠ "" then acc + entryMonths w.period else acc)
          (totalMonths pre) := by
    unfold totalMonths
    rw [List.foldl_append]
  rw [h1]
  show post.foldl (fun acc w => if w.period ≠ "" then acc + entryMonths w.period else acc)
      (if w.period ≠ "" then totalMonths pre + entryMonths w.period else totalMonths pre) = _
  rw [totalMonths_foldl]
  split_ifs <;> ring

/-- C3: for every resume that has education detail rows, `get_final_education`
(order by education level descending, first row) returns a row of that resume
whose education level has the maximum ordinal rank (1 = elementary …
6 = doctorate) among all of the resume's `ResumeEducation` rows. -/
theorem get_final_education_is_max_level (db : Db) (rid : String)
    (h : db.resume_educations.filter (fun r => r.resume_id = rid) ≠ []) :
    ∃ row, get_final_education db false rid = some row ∧
      row ∈ db.resume_educations.filter (fun r => r.resume_id = rid) ∧
      ∀ r ∈ db.resume_educations.filter (fun r => r.resume_id = rid),
        r.education_level.levelNumber ≤ row.education_level.levelNumber := by
  unfold get_final_education
  rw [if_neg (by simp)]
  rw [head?_sortKeyDesc]
  cases hm : firstMaxByKey (fun r : ResumeEducation => r.education_level.levelNumber)
      (db.resume_educations.filter (fun r => r.resume_id = rid)) with
  | none => exact absurd ((firstMaxByKey_eq_none _).mp hm) h
  | some m => exact ⟨m, rfl, firstMaxByKey_mem _ hm, firstMaxByKey_le _ hm⟩

/-- Sample store for the C3 witness: resume `r1` holds a middle-school row and
a doctorate row (a pair that string ordering of the enum names would invert). -/
def c3Db : Db :=
  { resumes := []
    resume_educations :=
      [⟨"r1", "서울중학교", EducationLevel.middle⟩,
       ⟨"r1", "한국대학교", EducationLevel.doctorate⟩,
       ⟨"r2", "부산대학교", EducationLevel.master⟩] }

/-- C3 witness: the theorem applied to the concrete store `c3Db`. -/
theorem get_final_education_is_max_level_witness :
    c3Db.resume_educations.filter (fun r => r.resume_id = "r1") ≠ [] ∧
    (∃ row, get_final_education c3Db false "r1" = some row ∧
      row ∈ c3Db.resume_educations.filter (fun r => r.resume_id = "r1") ∧
      ∀ r ∈ c3Db.resume_educations.filter (fun r => r.resume_id = "r1"),
        r.education_level.levelNumber ≤ row.education_level.levelNumber) :=
  ⟨by decide, get_final_education_is_max_level c3Db "r1" (by decide)⟩

/-- C4: `process_education_data` returns `([], none)` on the empty list; on a
non-empty list it returns all per-entry parses together with a final education
that attains the maximum `level_number` and is the first entry of the parsed
list (i.e. original input order) attaining it. -/
theorem process_education_data_final_spec :
    process_education_data [] = ([], none) ∧
    ∀ l : List EducationData, l ≠ [] →
      ∃ h, process_education_data l = (l.map parse_education_info, some h) ∧
        (∀ e ∈ l.map parse_education_info, e.level_number ≤ h.level_number) ∧
        ∃ as bs, l.map parse_education_info = as ++ h :: bs ∧
          ∀ e ∈ as, e.level_number < h.level_number := by
  refine ⟨rfl, ?_⟩
  intro l hl
  cases l with
  | nil => exact absurd rfl hl
  | cons d ds =>
    have hpe : process_education_data (d :: ds) =
        ((d :: ds).map parse_education_info,
          find_highest_education ((d :: ds).map parse_education_info)) := rfl
    rw [hpe, find_highest_education_eq_firstMax]
    cases hm : firstMaxByKey (fun e : ParsedEducation => e.level_number)
        ((d :: ds).map parse_education_info) with
    | none =>
      have := (firstMaxByKey_eq_none _).mp hm
      simp at this
    | some m =>
      exact ⟨m, rfl, firstMaxByKey_le _ hm, firstMaxByKey_first _ hm⟩

/-- Sample input for the C4 witness: the maximum tier 6 is attained twice;
the earlier of the two entries must be selected. -/
def c4Input : List EducationData :=
  [⟨"서울고등학교", ""⟩, ⟨"한국대학교", "박사"⟩, ⟨"부산대학교", "박사과정"⟩]

/-- C4 witness: the theorem applied to the concrete input `c4Input`. -/
theorem process_education_data_final_spec_witness :
    c4Input ≠ [] ∧
    (∃ h, process_education_data c4Input = (c4Input.map parse_education_info, some h) ∧
      (∀ e ∈ c4Input.map parse_education_info, e.level_number ≤ h.level_number) ∧
      ∃ as bs, c4Input.map parse_education_info = as ++ h :: bs ∧
        ∀ e ∈ as, e.level_number < h.level_number) :=
  ⟨by decide, process_education_data_final_spec.2 c4Input (by decide)⟩

/-- C5 counterexample: the table maps the keyword `대학원` (graduate school)
to tier 5, but `extract_education_level` returns 4 on it, because the earlier
table entry `대학` (tier 4) matches as a substring first. -/
theorem extract_education_level_keyword_counterexample :
    ("대학원", 5) ∈ EDUCATION_KEYWORDS ∧
    extract_education_level "대학원" = 4 ∧
    extract_education_level "대학원" ≠ 5 :=
  ⟨by decide, by decide, by decide⟩

/-- C5 (amended): every supported keyword except `대학원` extracts to exactly
its mapped tier (`대학원` yields 4 via the earlier substring `대학`); the
empty string yields 0; and any non-empty string containing no table keyword
and no fallback-pattern literal yields 0. -/
theorem extract_education_level_spec :
    (∀ p ∈ EDUCATION_KEYWORDS, p.1 ≠ "대학원" → extract_education_level p.1 = p.2) ∧
    extract_education_level "대학원" = 4 ∧
    extract_education_level "" = 0 ∧
    (∀ s : String, s ≠ "" →
      (∀ kw ∈ EDUCATION_KEYWORDS, containsSub kw.1.data (lowerStrip s.data) = false) →
      (∀ p ∈ EducationMapper.patterns, ∀ w ∈ p.1,
        containsSub w.data (lowerStrip s.data) = false) →
      extract_education_level s = 0) := by
  refine ⟨by decide, by decide, by decide, ?_⟩
  intro s hs hkw hpat
  unfold extract_education_level
  rw [if_neg hs]
  have h1 : EDUCATION_KEYWORDS.findSome?
      (fun kw => if containsSub kw.1.data (lowerStrip s.data) then some kw.2 else none) = none := by
    refine findSome?_none_of ?_
    intro a ha
    rw [hkw a ha]
    rfl
  have h2 : EducationMapper.patterns.findSome?
      (fun p => if p.1.any (fun w => containsSub w.data (lowerStrip s.data)) then some p.2 else none)
        = none := by
    refine findSome?_none_of ?_
    intro a ha
    have hany : a.1.any (fun w => containsSub w.data (lowerStrip s.data)) = false := by
      rw [List.any_eq_false]
      intro w hw
      rw [hpat a ha w hw]
      exact Bool.false_ne_true
    rw [hany]
    rfl
  simp only [h1, h2]

/-- C5 witness: the amended theorem applied at the keyword `석사` and at the
unclassifiable string `zzz`. -/
theorem extract_education_level_spec_witness :
    (("석사", 5) ∈ EDUCATION_KEYWORDS ∧ ("석사" : String) ≠ "대학원" ∧
      extract_education_level "석사" = 5) ∧
    (("zzz" : String) ≠ "" ∧ extract_education_level "zzz" = 0) :=
  ⟨⟨by decide, by decide, extract_education_level_spec.1 ("석사", 5) (by decide) (by decide)⟩,
   ⟨by decide, extract_education_level_spec.2.2.2 "zzz" (by decide) (by decide) (by decide)⟩⟩

/-- C6: `parse_education_info`'s `level_number` is the maximum of the levels
extracted from institution and degree when that maximum is positive, is the
default bachelor tier 4 when the maximum is 0, and is never 0. -/
theorem parse_education_info_level_spec (inst deg : String) :
    (0 < max (extract_education_level inst) (extract_education_level deg) →
      (parse_education_info ⟨inst, deg⟩).level_number
        = max (extract_education_level inst) (extract_education_level deg)) ∧
    (max (extract_education_level inst) (extract_education_level deg) = 0 →
      (parse_education_info ⟨inst, deg⟩).level_number = 4) ∧
    (parse_education_info ⟨inst, deg⟩).level_number ≠ 0 := by
  refine ⟨?_, ?_, ?_⟩
  · intro hpos
    show (if max (extract_education_level inst) (extract_education_level deg) = 0 then 4
      else max (extract_education_level inst) (extract_education_level deg)) = _
    rw [if_neg (Nat.pos_iff_ne_zero.mp hpos)]
  · intro h0
    show (if max (extract_education_level inst) (extract_education_level deg) = 0 then 4
      else max (extract_education_level inst) (extract_education_level deg)) = 4
    rw [if_pos h0]
  · show (if max (extract_education_level inst) (extract_education_level deg) = 0 then 4
      else max (extract_education_level inst) (extract_education_level deg)) ≠ 0
    by_cases h : max (extract_education_level inst) (extract_education_level deg) = 0
    · rw [if_pos h]; exact by decide
    · rw [if_neg h]; exact h

/-- C6 witness: the theorem applied at a classifiable pair (`고등학교`, tier
3, positive max) and at an unclassifiable pair (default 4). -/
theorem parse_education_info_level_spec_witness :
    (0 < max (extract_education_level "고등학교") (extract_education_level "") ∧
      (parse_education_info ⟨"고등학교", ""⟩).level_number
        = max (extract_education_level "고등학교") (extract_education_level "")) ∧
    (max (extract_education_level "인공지능연구소") (extract_education_level "과정") = 0 ∧
      (parse_education_info ⟨"인공지능연구소", "과정"⟩).level_number = 4) :=
  ⟨⟨by decide, (parse_education_info_level_spec "고등학교" "").1 (by decide)⟩,
   ⟨by decide, (parse_education_info_level_spec "인공지능연구소" "과정").2.1 (by decide)⟩⟩

/-- C7 counterexample: with the single work entry whose period is `"N/A"`,
the computed tenure is 0.0 — the entry contributes 0 months (the string has
no `'-'`, so the two-part branch never runs and nothing is added), not the
claimed 12 months, which would have produced round(12/12, 1) = 1.0. -/
theorem malformed_period_counterexample :
    calculate_experience_years [⟨"N/A", "회사", "과장", ""⟩] = 0 ∧
    calculate_experience_years [⟨"N/A", "회사", "과장", ""⟩] ≠ 1 := by
  have h1 : calculate_experience_years [⟨"N/A", "회사", "과장", ""⟩]
      = pyRound1 ((totalMonths [⟨"N/A", "회사", "과장", ""⟩] : ℚ) / 12) := by
    unfold calculate_experience_years
    rw [if_neg (by decide)]
  have h : totalMonths [⟨"N/A", "회사", "과장", ""⟩] = 0 := by decide
  rw [h1, h]
  constructor
  · unfold pyRound1 roundHalfEven
    norm_num
  · unfold pyRound1 roundHalfEven
    norm_num

/-- C7 (amended): a malformed period contributes 12 months only when it splits
on `'-'` into exactly two parts and a side fails integer parsing; a non-empty
period that does not split into exactly two parts (such as `"N/A"`, which has
no hyphen) contributes 0 months; and in every case the contributions of the
surrounding entries are preserved (the computation is never aborted). -/
theorem entryMonths_malformed_spec :
    (∀ p : String, (splitOnChar '-' p.data).length = 2 →
      (yearOf (pyStrip (splitOnChar '-' p.data).headI) = none ∨
       yearOf (pyStrip ((splitOnChar '-' p.data).getD 1 [])) = none) →
      entryMonths p = 12) ∧
    (∀ p : String, (splitOnChar '-' p.data).length ≠ 2 → entryMonths p = 0) ∧
    entryMonths "N/A" = 0 ∧
    (∀ (pre post : List WorkExperience) (w : WorkExperience),
      totalMonths (pre ++ w :: post) =
        totalMonths pre + (if w.period ≠ "" then entryMonths w.period else 0)
          + totalMonths post) := by
  refine ⟨?_, ?_, by decide, totalMonths_decomp⟩
  · intro p hlen hf
    unfold entryMonths
    simp only [hlen, if_true]
    cases hy1 : yearOf (pyStrip (splitOnChar '-' p.data).headI) with
    | none => rfl
    | some sy =>
      cases hy2 : yearOf (pyStrip ((splitOnChar '-' p.data).getD 1 [])) with
      | none => rfl
      | some ey =>
        rcases hf with hf | hf
        · rw [hf] at hy1; cases hy1
        · rw [hf] at hy2; cases hy2
  · intro p hlen
    unfold entryMonths
    simp only [hlen, if_false]

/-- C7 witness: the amended theorem applied at `"abc-def"` (two-part split
with failing year parses: 12 months) and at `"N/A"` (no hyphen: 0 months). -/
theorem entryMonths_malformed_spec_witness :
    ((splitOnChar '-' ("abc-def" : String).data).length = 2 ∧ entryMonths "abc-def" = 12) ∧
    ((splitOnChar '-' ("N/A" : String).data).length ≠ 2 ∧ entryMonths "N/A" = 0) :=
  ⟨⟨by decide, entryMonths_malformed_spec.1 "abc-def" (by decide) (Or.inl (by decide))⟩,
   ⟨by decide, entryMonths_malformed_spec.2.1 "N/A" (by decide)⟩⟩

/-- Work-experience list of the spec's tenure example (C8). -/
def c8Work : List WorkExperience :=
  [⟨"2020-2023", "A사", "과장", ""⟩, ⟨"2018.01-2019.06", "B사", "대리", ""⟩]

/-- C8 counterexample: on periods `"2020-2023"` and `"2018.01-2019.06"` the
computed tenure is 4.0, not the claimed 6.0 (the claim's own formula
round(((2023-2020)*12 + (2019-2018)*12)/12, 1) evaluates to 48/12 = 4.0). -/
theorem tenure_example_counterexample :
    calculate_experience_years c8Work = 4 ∧ calculate_experience_years c8Work ≠ 6 := by
  have h1 : calculate_experience_years c8Work
      = pyRound1 ((totalMonths c8Work : ℚ) / 12) := by
    unfold calculate_experience_years
    rw [if_neg (by decide)]
  have h : totalMonths c8Work = 48 := by decide
  rw [h1, h]
  constructor
  · unfold pyRound1 roundHalfEven
    norm_num
  · unfold pyRound1 roundHalfEven
    norm_num

/-- C8 (amended): on those two entries the computed tenure equals
round(((2023-2020)*12 + (2019-2018)*12)/12, 1) = 4.0. -/
theorem tenure_example_value :
    calculate_experience_years c8Work
      = pyRound1 (((((2023 - 2020) * 12 + (2019 - 2018) * 12 : ℤ)) : ℚ) / 12) ∧
    calculate_experience_years c8Work = 4 := by
  have h1 : calculate_experience_years c8Work
      = pyRound1 ((totalMonths c8Work : ℚ) / 12) := by
    unfold calculate_experience_years
    rw [if_neg (by decide)]
  have h : totalMonths c8Work = 48 := by decide
  rw [h1, h]
  constructor
  · norm_num
  · unfold pyRound1 roundHalfEven
    norm_num

/-- Extraction payload for the C1 counterexample: one education entry, no
work history. -/
def c1Payload : ExtractedResumeInfo :=
  { name := "김철수"
    gender := "남"
    birth_year := 1990
    phone_number := "010-0000-0000"
    email := "kim@example.com"
    address := "서울"
    education := [⟨"2014-2018", "서울대학교", "컴퓨터공학", "학사", "A"⟩]
    work_experience := []
    certifications := []
    language_skills := [] }

/-- C1 counterexample: starting from an empty store, when the first commit
succeeds and the detail-row commit fails, the failure is surfaced (`none`)
yet the store is changed — the resume row is already committed, refuting
"either both are committed or neither, with the store unchanged on failure". -/
theorem save_not_atomic_counterexample :
    (save_extracted_resume ⟨[], []⟩ c1Payload "r1" "r.pdf" 100 none 0 false true).1 = none ∧
    (save_extracted_resume ⟨[], []⟩ c1Payload "r1" "r.pdf" 100 none 0 false true).2.resumes
      = [build_resume_row c1Payload "r1" "r.pdf" 100 none 0] ∧
    (save_extracted_resume ⟨[], []⟩ c1Payload "r1" "r.pdf" 100 none 0 false true).2
      ≠ (⟨[], []⟩ : Db) := by
  refine ⟨rfl, rfl, ?_⟩
  intro hcontra
  have := congrArg (fun d => d.resumes.length) hcontra
  simp [save_extracted_resume] at this

/-- C1 (amended): `save_extracted_resume` runs two transactions, not one.  If
the first commit fails, nothing is persisted and the failure is surfaced; if
the record commit succeeds and the detail commit fails, the failure is
surfaced and the detail rows are rolled back, but the record row remains
committed; if both succeed, the record and all of its detail rows persist. -/
theorem save_extracted_resume_two_transactions
    (db : Db) (x : ExtractedResumeInfo) (rid fname : String) (fsize : Int)
    (ub : Option String) (now : Nat) (c2 : Bool) :
    save_extracted_resume db x rid fname fsize ub now true c2 = (none, db) ∧
    save_extracted_resume db x rid fname fsize ub now false true =
      (none, { db with resumes := db.resumes ++ [build_resume_row x rid fname fsize ub now] }) ∧
    save_extracted_resume db x rid fname fsize ub now false false =
      (some (build_resume_row x rid fname fsize ub now),
        { resumes := db.resumes ++ [build_resume_row x rid fname fsize ub now]
          resume_educations := db.resume_educations ++ education_rows x rid }) :=
  ⟨rfl, rfl, rfl⟩

/-- Stored resume for the C2 evaluation (active: `deleted_at` is NULL). -/
def c2Resume : Resume :=
  { id := "r1"
    status := ResumeStatus.completed
    original_filename := "r.pdf"
    file_size := 100
    name := some "김철수"
    email := none
    phone := none
    address := none
    birth_year := some 1990
    total_experience_years := 0
    current_position := none
    current_company := none
    previous_companies := none
    education_level := some EducationLevel.bachelor
    university := some "서울대학교"
    graduation_year := none
    uploaded_by := none
    created_at := 0
    deleted_at := none }

/-- Education detail row of the stored resume for the C2 evaluation. -/
def c2Edu : ResumeEducation := ⟨"r1", "서울대학교", EducationLevel.bachelor⟩

/-- Store holding the C2 sample resume and its detail row. -/
def c2Db : Db := ⟨[c2Resume], [c2Edu]⟩

/-- C2 evaluated at the failing input: soft delete returns `False` and leaves
the store untouched (no deletion timestamp is ever set — `func` is unbound in
resume_service.py, so the update raises `NameError` before reaching the
database), and hard delete removes the resume row but leaves the education
detail row behind (no ForeignKey, no cascade). -/
theorem delete_resume_by_id_failing_behavior :
    delete_resume_by_id c2Db "r1" false false = (false, c2Db) ∧
    (∀ r ∈ (delete_resume_by_id c2Db "r1" false false).2.resumes, r.deleted_at = none) ∧
    (delete_resume_by_id c2Db "r1" true false).1 = true ∧
    get_resume_by_id (delete_resume_by_id c2Db "r1" true false).2 false "r1" = none ∧
    (delete_resume_by_id c2Db "r1" true false).2.resume_educations = [c2Edu] := by
  refine ⟨rfl, ?_, rfl, rfl, rfl⟩
  intro r hr
  rcases List.mem_singleton.mp hr with rfl
  rfl

/-- C9: every read operation maps an internal storage error to exactly the
value an error-free query over an empty store yields (`None` for
`get_resume_by_id`, `[]` for the list queries), so callers cannot distinguish
a storage failure from not-found / no-match, and nothing is raised. -/
theorem read_ops_error_indistinguishable
    (db : Db) (rid nm : String) (limit offset : Nat) :
    get_resume_by_id db true rid = get_resume_by_id ⟨[], []⟩ false rid ∧
    get_resume_by_id db true rid = none ∧
    get_resumes_by_name db true nm = get_resumes_by_name ⟨[], []⟩ false nm ∧
    get_resumes_by_name db true nm = [] ∧
    get_all_resumes db true limit offset = get_all_resumes ⟨[], []⟩ false limit offset ∧
    get_all_resumes db true limit offset = [] := by
  have hall : get_all_resumes ⟨[], []⟩ false limit offset = [] := by
    show (((sortKeyDesc (fun r : Resume => r.created_at) []).drop offset).take limit) = []
    simp [sortKeyDesc]
  exact ⟨rfl, rfl, rfl, rfl, hall.symm, rfl⟩

/-- C10: `_extract_previous_companies` returns `None` for fewer than two
entries; with at least two, it returns `None` (not a serialized empty list)
when every entry from index 1 on has an empty company name, and otherwise the
serialization of exactly the non-empty company names from index 1 on. -/
theorem extract_previous_companies_spec (l : List WorkExperience) :
    (l.length < 2 → extract_previous_companies l = none) ∧
    (2 ≤ l.length →
      (((l.drop 1).filter (fun w => w.company ≠ "")) = [] →
        extract_previous_companies l = none) ∧
      ∀ c cs, ((l.drop 1).filter (fun w => w.company ≠ "")).map (fun w => w.company) = c :: cs →
        extract_previous_companies l = some (jsonDumpsStrList (c :: cs))) := by
  refine ⟨?_, ?_⟩
  · intro hlt
    unfold extract_previous_companies
    rw [if_pos (by omega)]
  · intro hge
    have hn : ¬ l.length ≤ 1 := by omega
    constructor
    · intro hf
      unfold extract_previous_companies
      rw [if_neg hn]
      simp only [hf, List.map_nil, List.isEmpty_nil, if_true]
    · intro c cs hmap
      unfold extract_previous_companies
      rw [if_neg hn]
      simp only [hmap, List.isEmpty_cons]
      rfl

/-- C10 witness: the theorem applied at a one-entry list (`None`), and at a
three-entry list where the index-1 entry has an empty company (dropped) and
index 2 a non-empty one (kept). -/
theorem extract_previous_companies_spec_witness :
    (([⟨"", "현재회사", "", ""⟩] : List WorkExperience).length < 2 ∧
      extract_previous_companies [⟨"", "현재회사", "", ""⟩] = none) ∧
    ((((([⟨"", "현재회사", "", ""⟩, ⟨"", "", "", ""⟩, ⟨"", "이전회사", "", ""⟩]
          : List WorkExperience).drop 1).filter (fun w => w.company ≠ "")).map
        (fun w => w.company) = "이전회사" :: []) ∧
      extract_previous_companies
          [⟨"", "현재회사", "", ""⟩, ⟨"", "", "", ""⟩, ⟨"", "이전회사", "", ""⟩]
        = some (jsonDumpsStrList ("이전회사" :: []))) :=
  ⟨⟨by decide, (extract_previous_companies_spec [⟨"", "현재회사", "", ""⟩]).1 (by decide)⟩,
   ⟨by decide,
    ((extract_previous_companies_spec
        [⟨"", "현재회사", "", ""⟩, ⟨"", "", "", ""⟩, ⟨"", "이전회사", "", ""⟩]).2
      (by decide)).2 "이전회사" [] (by decide)⟩⟩
